import Mathlib

/-!
Verification of the multi-source content discovery and enrichment pipeline
(`APP/Services/Search*.py`, `APP/Services/async_search*.py`,
`APP/Services/Extract_Diffbot.py`, `APP/Services/async_extract_diffbot.py`).

The Python code is shallowly embedded: dict-shaped rows become structures,
external HTTP calls become explicit outcome values passed as arguments, and
Python exceptions become `Except.error`.
-/

set_option autoImplicit false

namespace Mentor

/-! ### String helpers (models of the Python stdlib string operations used) -/

/-- Model of Python `str.strip()`: drop leading and trailing whitespace. -/
def pyStrip (s : String) : String :=
  String.mk (((s.toList.dropWhile Char.isWhitespace).reverse.dropWhile
    Char.isWhitespace).reverse)

/-- Model of Python `str.lower()`: lower-case every character. -/
def pyLower (s : String) : String :=
  String.mk (s.toList.map Char.toLower)

/-- Contiguous-sublist test on characters, structural recursion on the
haystack. -/
def isInfixChars (needle : List Char) : List Char → Bool
  | [] => needle.isEmpty
  | c :: rest => needle.isPrefixOf (c :: rest) || isInfixChars needle rest

/-- Model of the Python substring test `needle in hay` for strings. -/
def pyIn (needle hay : String) : Bool :=
  isInfixChars needle.toList hay.toList

/-- Character allowed in a URL scheme after the first letter
(RFC 3986, as accepted by `urllib.parse.urlparse`). -/
def isSchemeChar (c : Char) : Bool :=
  c.isAlphanum || c = '+' || c = '-' || c = '.'

/-- Model of `urllib.parse.urlparse(link).netloc`: if the text before the
first `:` is a valid scheme it is stripped; the netloc is then the text
between a leading `//` and the next `/`, `?` or `#`, and is empty when the
remainder does not start with `//`. -/
def parseNetloc (link : String) : String :=
  let cs := link.toList
  let rest :=
    match cs.span (fun c => c != ':') with
    | (before, ':' :: after) =>
      if before ≠ [] ∧ before.all isSchemeChar ∧
          (before.head?.elim false Char.isAlpha) then after else cs
    | _ => cs
  match rest with
  | '/' :: '/' :: after =>
    String.mk (after.takeWhile (fun c => !(c = '/' || c = '?' || c = '#')))
  | _ => ""

/-! ### Data model -/

/-- A discovery hit before enrichment, the dict shape produced by both
provider clients: `{"title", "link", "snippet", "retrieved_source"}`. -/
structure Candidate where
  title : String
  link : String
  snippet : String
  retrieved_source : String
deriving DecidableEq, Repr

/-! ### Domain filters (`Search_Serper.py` / `Search_Tavily.py` lines 32-105;
the same lists and helpers are duplicated verbatim in both provider modules
and in their async variants, so one embedding covers all four). -/

/-- `VIDEO_DOMAINS`: known video hosting or embedding domains. -/
def VIDEO_DOMAINS : List String := [
  "youtube.com", "youtu.be", "vimeo.com", "dailymotion.com", "metacafe.com",
  "twitch.tv", "bilibili.com", "veoh.com", "vevo.com",
  "facebook.com", "fb.watch", "instagram.com", "tiktok.com", "x.com", "twitter.com",
  "linkedin.com/video",
  "coursera.org/lecture", "udemy.com/course", "edx.org/course", "khanacademy.org/video",
  "netflix.com", "hulu.com", "primevideo.com", "disneyplus.com",
  "player.vimeo.com", "video.google.com", "cdn.jwplayer.com", "videos.cdn", "dai.ly"]

/-- `VIDEO_WHITELIST`: video platforms supported for video-only searches. -/
def VIDEO_WHITELIST : List String := [
  "youtube.com", "youtu.be", "vimeo.com", "dailymotion.com",
  "twitch.tv", "bilibili.com",
  "linkedin.com/video",
  "coursera.org/lecture", "udemy.com/course", "edx.org/course", "khanacademy.org/video",
  "video.google.com"]

/-- `is_video_link`: the URL's host, or the raw URL lower-cased, contains
some entry of `VIDEO_DOMAINS`. -/
def is_video_link (link : String) : Bool :=
  let domain := pyLower (parseNetloc link)
  VIDEO_DOMAINS.any (fun vd => pyIn vd domain || pyIn vd (pyLower link))

/-- `is_allowed_video_link`: the same test against `VIDEO_WHITELIST`. -/
def is_allowed_video_link (link : String) : Bool :=
  let domain := pyLower (parseNetloc link)
  VIDEO_WHITELIST.any (fun vd => pyIn vd domain || pyIn vd (pyLower link))

/-- `filter_text_results`: remove any video-related links. -/
def filter_text_results (results : List Candidate) : List Candidate :=
  results.filter (fun item => !is_video_link item.link)

/-- `filter_video_results`: keep only whitelisted video platform links. -/
def filter_video_results (results : List Candidate) : List Candidate :=
  results.filter (fun item => is_allowed_video_link item.link)

/-- `MAX_LINKS` from `APP/Configration.py`. -/
def MAX_LINKS : Nat := 10

/-! ### Serper provider client (`Search_Serper.py` `discover_with_serper`).
The HTTP exchange is abstracted into an `ApiResponse` argument; the raw JSON
rows (after the `item.get(key, "")` defaulting) become `RawRow`s. -/

/-- A raw result row as consumed from the provider JSON. -/
structure RawRow where
  title : String
  link : String
  snippet : String
deriving DecidableEq, Repr

/-- The fields of the Serper response body the client consumes. -/
structure SerperData where
  organic : List RawRow
  videos : List RawRow
deriving DecidableEq, Repr

/-- Outcome of an outbound HTTP call: non-200 status with a body, or a
parsed payload. -/
inductive ApiResponse (α : Type) where
  | fail (status : Nat) (body : String)
  | ok (data : α)
deriving DecidableEq, Repr

/-- `discover_with_serper`: raise on non-200; otherwise map the rows of the
mode's section into candidates, apply the mode's domain filter, and truncate
to `MAX_LINKS`. -/
def discover_with_serper (search_type : String) (resp : ApiResponse SerperData) :
    Except String (List Candidate) :=
  match resp with
  | .fail status body =>
    .error ("Serper API error " ++ toString status ++ ": " ++ body)
  | .ok data =>
    let raw_results : List Candidate :=
      if search_type = "search" then
        data.organic.map (fun item => ⟨item.title, item.link, item.snippet, "serper"⟩)
      else if search_type = "videos" then
        data.videos.map (fun item => ⟨item.title, item.link, item.snippet, "serper"⟩)
      else []
    let results : List Candidate :=
      if search_type = "search" then filter_text_results raw_results
      else if search_type = "videos" then filter_video_results raw_results
      else []
    .ok (results.take MAX_LINKS)

/-! ### Merger (`combine_results`, identical in `Search.py` lines 88-124 and
`async_search.py` lines 94-132: one `seen_links` set threaded through a pass
over the Tavily list and then a pass over the Serper list). -/

/-- The identity key used by the merge loop:
`item.get("link", "").strip().lower()`. -/
def normalized_link (item : Candidate) : String :=
  pyLower (pyStrip item.link)

/-- One pass of the merge loop: append each item whose normalized link is
truthy (non-empty) and unseen, threading the seen-set. -/
def combineInto : List Candidate → List String → List Candidate × List String
  | [], seen => ([], seen)
  | item :: rest, seen =>
    let link := normalized_link item
    if link ≠ "" ∧ link ∉ seen then
      let r := combineInto rest (link :: seen)
      (item :: r.1, r.2)
    else
      combineInto rest seen

/-- `combine_results`: Tavily results first, then Serper results that are
not duplicates, under one shared seen-set. -/
def combine_results (tavily_results serper_results : List Candidate) :
    List Candidate :=
  let t := combineInto tavily_results []
  let s := combineInto serper_results t.2
  t.1 ++ s.1

/-! ### Text enricher (`async_extract_diffbot.py` and `Extract_Diffbot.py`).
The Diffbot HTTP exchange is abstracted into a `DiffbotOutcome` argument:
the error constructors are the branches the Python code distinguishes, and
`ok` carries the parsed `"objects"` array of a 200 response. -/

/-- One extracted article object from the Diffbot `"objects"` array, with
the `article_obj.get(...)` optional fields the code consumes. -/
structure ArticleObj where
  title : Option String
  text : Option String
  author : Option String
  site : Option String
  date : Option String
  tags : List String
deriving DecidableEq, Repr

/-- Outcome of one Diffbot call: non-200 status, network-level error,
malformed response body, or a 200 response with its parsed objects array. -/
inductive DiffbotOutcome where
  | httpError (status : Nat) (body : String)
  | netError (msg : String)
  | jsonError (msg : String)
  | ok (objects : List ArticleObj)
deriving DecidableEq, Repr

/-- The text-mode output unit of the async pipeline (`async_extract_diffbot.py`
output structure). -/
structure EnrichedText where
  title : String
  link : String
  snippet : String
  retrieved_source : String
  text : Option String
  author : Option String
  site : Option String
  date : Option String
  tags : List String
deriving DecidableEq, Repr

/-- Python truthiness of an optional string: present and non-empty. -/
def pyTruthy : Option String → Bool
  | none => false
  | some s => !s.isEmpty

/-- `_create_fallback_result` (`async_extract_diffbot.py` lines 117-137):
original title, link, snippet and source, all enrichment fields `None`/`[]`. -/
def fallback_result (url : String) (original_item : Candidate) : EnrichedText :=
  { title := original_item.title
    link := url
    snippet := original_item.snippet
    retrieved_source := original_item.retrieved_source
    text := none
    author := none
    site := none
    date := none
    tags := [] }

/-- Async `extract_with_diffbot`: every failure branch (non-200, network
error, malformed response, empty objects array) returns the fallback; on
success the title is overwritten only when Diffbot's is truthy, the text is
`None` unless truthy, and the metadata fields are copied as-is. -/
def extract_with_diffbot (url : String) (original_item : Candidate)
    (outcome : DiffbotOutcome) : EnrichedText :=
  match outcome with
  | .httpError _ _ => fallback_result url original_item
  | .netError _ => fallback_result url original_item
  | .jsonError _ => fallback_result url original_item
  | .ok objects =>
    match objects.head? with
    | none => fallback_result url original_item
    | some article_obj =>
      { title := if pyTruthy article_obj.title
          then article_obj.title.getD original_item.title
          else original_item.title
        link := url
        snippet := original_item.snippet
        retrieved_source := original_item.retrieved_source
        text := if pyTruthy article_obj.text then article_obj.text else none
        author := article_obj.author
        site := article_obj.site
        date := article_obj.date
        tags := article_obj.tags }

/-- The failure cases of the async extractor's contract: network error,
non-2xx status, malformed response, or no extractable content object. -/
def diffbotFailed : DiffbotOutcome → Bool
  | .ok objects => objects.isEmpty
  | _ => true

/-- The result dict of the sync `extract_with_diffbot` (`Extract_Diffbot.py`):
it does not receive the candidate, so it carries only Diffbot's fields plus
the url. -/
structure SyncDiffbotResult where
  title : Option String
  link : String
  text : Option String
  author : Option String
  date : Option String
  tags : List String
deriving DecidableEq, Repr

/-- Sync `extract_with_diffbot` (`Extract_Diffbot.py` lines 42-203): raises
(`Except.error`) on a non-200 status (lines 113-114) and on uncaught
network/JSON errors; only an empty objects array degrades to the null-fields
result (lines 162-170). -/
def extract_with_diffbot_sync (url : String) (outcome : DiffbotOutcome) :
    Except String SyncDiffbotResult :=
  match outcome with
  | .httpError status body =>
    .error ("Diffbot API error " ++ toString status ++ ": " ++ body)
  | .netError msg => .error msg
  | .jsonError msg => .error msg
  | .ok objects =>
    match objects.head? with
    | some article_obj =>
      .ok ⟨article_obj.title, url, article_obj.text, article_obj.author,
        article_obj.date, article_obj.tags⟩
    | none => .ok ⟨none, url, none, none, none, []⟩

/-! ### Video enricher and pipeline orchestrator (`async_search.py`). -/

/-- Modelled from the spec: the Video Enricher output unit. The module
implementing `process_videos` (`async_videos_metadata.py` /
`VideosMetadata_YouTubeAPI_AssemblyAIAPI.py`) is not under `src/`; per the
spec (section 4.5) the enricher never raises and captures any stage failure
in its error field, so the orchestrator model takes the enrichment of each
candidate as a total function argument producing this shape. -/
structure EnrichedVideo where
  title : String
  link : String
  snippet : String
  retrieved_source : String
  video_id : Option String
  channel : Option String
  duration : Option String
  has_captions : Bool
  transcript : Option String
  transcript_source : Option String
  error : Option String
deriving DecidableEq, Repr

/-- One element of the pipeline's result list: a text-mode or a video-mode
enriched record. -/
inductive Enriched where
  | text (e : EnrichedText)
  | video (e : EnrichedVideo)
deriving DecidableEq, Repr

/-- The "Handle exceptions gracefully" block of `async_search.py` lines
179-184: a provider task that raised contributes an empty candidate list. -/
def exception_to_empty (r : Except String (List Candidate)) : List Candidate :=
  match r with
  | .error _ => []
  | .ok results => results

/-- Async `searching_Serper_Tavily_YouTube_AssemblyAI` (`async_search.py`
lines 139-236). Each provider's discovery is an `Except` argument (the
awaited task's value or its exception); an exception is replaced by `[]`.
After the merge, an empty merged list returns `.ok []` before the mode is
examined. In `"search"` mode every merged item is enriched with the async
extractor (the per-item Diffbot outcome is the `diffbot` argument); in
`"videos"` mode with the total `process_videos` argument; any other mode
raises `ValueError`. Because both enrichers are total, the
`return_exceptions` filter of step 3 keeps every element and is omitted. -/
def searching_Serper_Tavily_YouTube_AssemblyAI
    (tavRes serRes : Except String (List Candidate))
    (diffbot : Candidate → DiffbotOutcome)
    (process_videos : Candidate → EnrichedVideo)
    (query : String) (search_type : String) : Except String (List Enriched) :=
  let tavily_results := exception_to_empty tavRes
  let serper_results := exception_to_empty serRes
  let final_results := combine_results tavily_results serper_results
  if final_results.isEmpty then
    .ok []
  else if search_type = "search" then
    .ok (final_results.map
      (fun item => .text (extract_with_diffbot item.link item (diffbot item))))
  else if search_type = "videos" then
    .ok (final_results.map (fun item => .video (process_videos item)))
  else
    .error ("Invalid search_type: " ++ search_type ++ ". Must be search or videos")

/-! ### Concrete fixtures used by witnesses and counterexamples -/

/-- A Tavily hit used in concrete instantiations. -/
def tavA : Candidate := ⟨"TAVILY", "https://a.com/x", "snippet tav", "tavily"⟩

/-- A Serper hit whose normalized link collides with `tavA`. -/
def serA : Candidate := ⟨"SERPER", "HTTPS://A.COM/X", "snippet ser", "serper"⟩

/-- A Serper hit with a fresh link. -/
def serB : Candidate := ⟨"S2", "https://b.com/y", "snippet s2", "serper"⟩

/-- A Diffbot world in which every call fails at the network level. -/
def diffbotDown : Candidate → DiffbotOutcome :=
  fun _ => .netError "connection refused"

/-- A trivial total video enrichment, standing in for `process_videos`. -/
def videoStub : Candidate → EnrichedVideo :=
  fun item =>
    ⟨item.title, item.link, item.snippet, item.retrieved_source,
      none, none, none, false, none, none, none⟩

/-! ### Lemmas about the merge loop -/

theorem combineInto_nil (seen : List String) : combineInto [] seen = ([], seen) :=
  rfl

theorem combineInto_cons (item : Candidate) (rest : List Candidate) (seen : List String) :
    combineInto (item :: rest) seen =
      if normalized_link item ≠ "" ∧ normalized_link item ∉ seen then
        (item :: (combineInto rest (normalized_link item :: seen)).1,
          (combineInto rest (normalized_link item :: seen)).2)
      else
        combineInto rest seen :=
  rfl

/-- Every candidate kept by a merge pass has a truthy normalized link that
was not in the seen-set the pass started from. -/
theorem combineInto_mem (items : List Candidate) (seen : List String) (c : Candidate)
    (hc : c ∈ (combineInto items seen).1) :
    normalized_link c ≠ "" ∧ normalized_link c ∉ seen := by
  induction items generalizing seen with
  | nil => simp [combineInto_nil] at hc
  | cons item rest ih =>
    rw [combineInto_cons] at hc
    by_cases h : normalized_link item ≠ "" ∧ normalized_link item ∉ seen
    · rw [if_pos h] at hc
      rcases List.mem_cons.mp hc with rfl | hmem
      · exact h
      · have hrec := ih (normalized_link item :: seen) hmem
        exact ⟨hrec.1, fun hs => hrec.2 (List.mem_cons_of_mem _ hs)⟩
    · rw [if_neg h] at hc
      exact ih seen hc

/-- The normalized links of one merge pass's output are pairwise distinct. -/
theorem combineInto_nodup (items : List Candidate) (seen : List String) :
    ((combineInto items seen).1.map normalized_link).Nodup := by
  induction items generalizing seen with
  | nil => simp [combineInto_nil]
  | cons item rest ih =>
    rw [combineInto_cons]
    by_cases h : normalized_link item ≠ "" ∧ normalized_link item ∉ seen
    · rw [if_pos h]
      refine List.nodup_cons.mpr ⟨?_, ih (normalized_link item :: seen)⟩
      intro hmem
      obtain ⟨c, hc, hck⟩ := List.mem_map.mp hmem
      exact (combineInto_mem _ _ _ hc).2 (hck ▸ List.mem_cons_self _ _)
    · rw [if_neg h]
      exact ih seen

/-- The seen-set after a merge pass is the starting seen-set plus the
normalized links of the pass's output. -/
theorem combineInto_snd_mem (items : List Candidate) (seen : List String) (k : String) :
    k ∈ (combineInto items seen).2 ↔
      k ∈ seen ∨ k ∈ (combineInto items seen).1.map normalized_link := by
  induction items generalizing seen with
  | nil => simp [combineInto_nil]
  | cons item rest ih =>
    rw [combineInto_cons]
    by_cases h : normalized_link item ≠ "" ∧ normalized_link item ∉ seen
    · rw [if_pos h]
      simp only [ih (normalized_link item :: seen), List.mem_cons, List.map_cons]
      tauto
    · rw [if_neg h]
      exact ih seen

/-- A merge pass keeps at most as many candidates as it is given. -/
theorem combineInto_length_le (items : List Candidate) (seen : List String) :
    (combineInto items seen).1.length ≤ items.length := by
  induction items generalizing seen with
  | nil => simp [combineInto_nil]
  | cons item rest ih =>
    rw [combineInto_cons]
    by_cases h : normalized_link item ≠ "" ∧ normalized_link item ∉ seen
    · rw [if_pos h]
      simpa using Nat.succ_le_succ (ih (normalized_link item :: seen))
    · rw [if_neg h]
      exact Nat.le_succ_of_le (ih seen)

/-- A merge pass keeps a list unchanged when its normalized links are
truthy, pairwise distinct, and disjoint from the starting seen-set. -/
theorem combineInto_eq_self (items : List Candidate) (seen : List String)
    (h1 : ∀ c ∈ items, normalized_link c ≠ "" ∧ normalized_link c ∉ seen)
    (h2 : (items.map normalized_link).Nodup) :
    (combineInto items seen).1 = items := by
  induction items generalizing seen with
  | nil => simp [combineInto_nil]
  | cons item rest ih =>
    rw [combineInto_cons, if_pos (h1 item (List.mem_cons_self _ _))]
    simp only [List.cons.injEq, true_and]
    refine ih (normalized_link item :: seen) (fun c hc => ?_) (List.nodup_cons.mp h2).2
    refine ⟨(h1 c (List.mem_cons_of_mem _ hc)).1, ?_⟩
    intro hmem
    rcases List.mem_cons.mp hmem with heq | hseen
    · exact (List.nodup_cons.mp h2).1 (heq ▸ List.mem_map_of_mem normalized_link hc)
    · exact (h1 c (List.mem_cons_of_mem _ hc)).2 hseen

/-- Searching a merge pass's output for a truthy key outside the starting
seen-set finds the same candidate as searching the input list. -/
theorem combineInto_find? (items : List Candidate) (seen : List String) (k : String)
    (hk : k ≠ "") (hs : k ∉ seen) :
    (combineInto items seen).1.find? (fun c => normalized_link c == k)
      = items.find? (fun c => normalized_link c == k) := by
  induction items generalizing seen with
  | nil => simp [combineInto_nil]
  | cons item rest ih =>
    rw [combineInto_cons]
    by_cases hp : normalized_link item = k
    · rw [if_pos ⟨hp ▸ hk, hp ▸ hs⟩]
      rw [List.find?_cons_of_pos _ (by simp [hp]), List.find?_cons_of_pos _ (by simp [hp])]
    · have hbeq : (normalized_link item == k) = false := by simp [hp]
      rw [List.find?_cons_of_neg _ (by simp [hp])]
      by_cases h : normalized_link item ≠ "" ∧ normalized_link item ∉ seen
      · rw [if_pos h, List.find?_cons_of_neg _ (by simp [hp])]
        refine ih (normalized_link item :: seen) ?_
        intro hmem
        rcases List.mem_cons.mp hmem with heq | hseen
        · exact hp heq.symm
        · exact hs hseen
      · rw [if_neg h]
        exact ih seen hs

/-- Candidates whose normalized link is empty do not influence a merge
pass: filtering them out of the input changes nothing. -/
theorem combineInto_filter_truthy (items : List Candidate) (seen : List String) :
    combineInto (items.filter (fun c => !(normalized_link c == ""))) seen
      = combineInto items seen := by
  induction items generalizing seen with
  | nil => simp [combineInto_nil]
  | cons item rest ih =>
    by_cases he : normalized_link item = ""
    · rw [List.filter_cons_of_neg (by simp [he]), combineInto_cons, if_neg (by simp [he])]
      exact ih seen
    · rw [List.filter_cons_of_pos (by simp [he]), combineInto_cons, combineInto_cons]
      by_cases h : normalized_link item ≠ "" ∧ normalized_link item ∉ seen
      · rw [if_pos h, if_pos h, ih (normalized_link item :: seen)]
      · rw [if_neg h, if_neg h]
        exact ih seen

/-- When the input's normalized links are truthy and pairwise distinct, a
merge pass keeps exactly the candidates whose link is not yet seen. -/
theorem combineInto_length_eq (items : List Candidate) (seen : List String)
    (h1 : ∀ c ∈ items, normalized_link c ≠ "")
    (h2 : (items.map normalized_link).Nodup) :
    (combineInto items seen).1.length
      = (items.filter (fun c => decide (normalized_link c ∉ seen))).length := by
  induction items generalizing seen with
  | nil => simp [combineInto_nil]
  | cons item rest ih =>
    have hhead := h1 item (List.mem_cons_self _ _)
    have hrest : ∀ c ∈ rest, normalized_link c ≠ "" :=
      fun c hc => h1 c (List.mem_cons_of_mem _ hc)
    have hnr : (rest.map normalized_link).Nodup := (List.nodup_cons.mp h2).2
    by_cases hmem : normalized_link item ∈ seen
    · rw [combineInto_cons, if_neg (by simp [hmem]),
        List.filter_cons_of_neg (by simp [hmem])]
      exact ih seen hrest hnr
    · rw [combineInto_cons, if_pos ⟨hhead, hmem⟩,
        List.filter_cons_of_pos (by simp [hmem])]
      simp only [List.length_cons, Nat.succ.injEq]
      rw [ih (normalized_link item :: seen) hrest hnr]
      refine congrArg List.length (List.filter_congr (fun c hc => ?_))
      have hne : normalized_link c ≠ normalized_link item := by
        intro heq
        exact (List.nodup_cons.mp h2).1 (heq ▸ List.mem_map_of_mem normalized_link hc)
      simp [List.mem_cons, hne]

/-- Counting a filter and its complement adds back to the list's length. -/
theorem length_filter_add_length_filter_not {α : Type} (l : List α) (p : α → Bool) :
    (l.filter p).length + (l.filter (fun a => !(p a))).length = l.length := by
  induction l with
  | nil => rfl
  | cons a l ih =>
    cases h : p a <;> simp [List.filter_cons, h] <;> omega

/-- Every candidate in the merged output has a truthy normalized link. -/
theorem combine_results_mem (tav ser : List Candidate) (c : Candidate)
    (hc : c ∈ combine_results tav ser) : normalized_link c ≠ "" := by
  rw [combine_results] at hc
  rcases List.mem_append.mp hc with h | h
  · exact (combineInto_mem _ _ _ h).1
  · exact (combineInto_mem _ _ _ h).1

/-- The normalized links of the merged output are pairwise distinct. -/
theorem combine_results_nodup (tav ser : List Candidate) :
    ((combine_results tav ser).map normalized_link).Nodup := by
  rw [combine_results]
  rw [List.map_append]
  refine (combineInto_nodup tav []).append (combineInto_nodup ser _) ?_
  intro k hkt hks
  obtain ⟨c, hc, hck⟩ := List.mem_map.mp hks
  refine (combineInto_mem _ _ _ hc).2 ?_
  rw [combineInto_snd_mem]
  exact Or.inr (hck ▸ hkt)

/-! ### Claim theorems -/

/-- C1 (counterexample): the claim says that for a link present in both
provider lists the merged output keeps Provider A's (Serper's) candidate.
On the code the merge loop iterates the Tavily list first, so for the link
`https://a.com/x`, surfaced by both providers, the merged output is exactly
the Tavily candidate and the Serper candidate is absent. -/
theorem merge_provider_A_precedence_cex :
    combine_results [tavA] [⟨"SERPER", "https://a.com/x", "snippet ser", "serper"⟩]
      = [tavA] ∧
    (⟨"SERPER", "https://a.com/x", "snippet ser", "serper"⟩ : Candidate) ∉
      combine_results [tavA] [⟨"SERPER", "https://a.com/x", "snippet ser", "serper"⟩] := by
  decide

/-- C1 (amended): `Merge(A,B)` contains no two candidates whose links are
equal after lower-casing and whitespace-trimming, and for every non-empty
normalized link present in both lists the candidate in the merged output is
the one from Provider B (Tavily), whose list the merge loop iterates
first. -/
theorem merge_dedup_and_duplicate_precedence (tav ser : List Candidate) :
    ((combine_results tav ser).map normalized_link).Nodup ∧
    ∀ k : String, k ≠ "" →
      (∃ c ∈ tav, normalized_link c = k) →
      (∃ c ∈ ser, normalized_link c = k) →
      (combine_results tav ser).find? (fun c => normalized_link c == k)
        = tav.find? (fun c => normalized_link c == k) := by
  refine ⟨combine_results_nodup tav ser, ?_⟩
  intro k hk htav _hser
  have hT : (combineInto tav []).1.find? (fun c => normalized_link c == k)
      = tav.find? (fun c => normalized_link c == k) :=
    combineInto_find? tav [] k hk (by simp)
  obtain ⟨c, hc, hck⟩ := htav
  have hcomb : combine_results tav ser
      = (combineInto tav []).1 ++ (combineInto ser (combineInto tav []).2).1 := rfl
  cases hfind : tav.find? (fun c => normalized_link c == k) with
  | none =>
    rw [List.find?_eq_none] at hfind
    exact absurd (show (normalized_link c == k) = true by simp [hck]) (hfind c hc)
  | some x =>
    rw [hcomb, List.find?_append, hT, hfind]
    rfl

/-- C1 (witness): the amended theorem applied to one overlapping link. -/
theorem merge_dedup_and_duplicate_precedence_witness :
    ((combine_results [tavA] [serA]).map normalized_link).Nodup ∧
    (combine_results [tavA] [serA]).find?
        (fun c => normalized_link c == "https://a.com/x")
      = [tavA].find? (fun c => normalized_link c == "https://a.com/x") :=
  ⟨(merge_dedup_and_duplicate_precedence [tavA] [serA]).1,
    (merge_dedup_and_duplicate_precedence [tavA] [serA]).2 "https://a.com/x"
      (by decide) ⟨tavA, by simp, by decide⟩ ⟨serA, by simp, by decide⟩⟩

/-- C2: with a valid request (non-empty query, supported mode), when both
provider discovery calls fail with an error the pipeline entry point
returns an empty list and does not raise. -/
theorem run_returns_empty_when_both_providers_fail
    (tavErr serErr : String) (diffbot : Candidate → DiffbotOutcome)
    (process_videos : Candidate → EnrichedVideo) (query search_type : String)
    (hq : query ≠ "") (hmode : search_type = "search" ∨ search_type = "videos") :
    searching_Serper_Tavily_YouTube_AssemblyAI (.error tavErr) (.error serErr)
      diffbot process_videos query search_type = .ok [] :=
  rfl

/-- C2 (witness): both providers down on a concrete valid request. -/
theorem run_returns_empty_when_both_providers_fail_witness :
    searching_Serper_Tavily_YouTube_AssemblyAI (.error "tavily 500")
      (.error "serper 500") diffbotDown videoStub
      "container orchestration basics" "search" = .ok [] :=
  run_returns_empty_when_both_providers_fail "tavily 500" "serper 500"
    diffbotDown videoStub "container orchestration basics" "search"
    (by decide) (Or.inl rfl)

/-- C3 (counterexample): the claim says `extract_with_diffbot` never raises
and degrades every failure to the null-fields fallback, citing both the
async and the sync implementation. The sync `extract_with_diffbot`
(`Extract_Diffbot.py` lines 113-114) raises on a non-2xx status instead of
returning a fallback result. -/
theorem sync_extract_raises_on_http_error_cex :
    extract_with_diffbot_sync "https://slow.example.com" (.httpError 500 "err")
      = .error "Diffbot API error 500: err" := by
  rfl

/-- C3 (amended): the async `extract_with_diffbot` never raises (it is a
total function of the call outcome): on any failure — network error,
non-2xx status, malformed response, or no extractable content object — it
returns an EnrichedResult with `text = none`, `author = none`,
`date = none`, `tags = []` (and `site = none`) and the candidate's title,
link, snippet and source copied unchanged. The sync variant raises on
network errors and non-2xx statuses and degrades only the
no-content-object case. -/
theorem async_extract_never_raises_fallback (url : String) (item : Candidate)
    (outcome : DiffbotOutcome) (h : diffbotFailed outcome = true) :
    extract_with_diffbot url item outcome
      = { title := item.title, link := url, snippet := item.snippet,
          retrieved_source := item.retrieved_source, text := none,
          author := none, site := none, date := none, tags := [] } := by
  cases outcome with
  | httpError status body => rfl
  | netError msg => rfl
  | jsonError msg => rfl
  | ok objects =>
    have hobj : objects = [] := by simpa [diffbotFailed] using h
    subst hobj
    rfl

/-- C3 (witness): the amended theorem at a concrete timed-out candidate. -/
theorem async_extract_never_raises_fallback_witness :
    extract_with_diffbot "https://slow.example.com"
        ⟨"Slow", "https://slow.example.com", "snip", "serper"⟩
        (.netError "timeout")
      = { title := "Slow", link := "https://slow.example.com", snippet := "snip",
          retrieved_source := "serper", text := none, author := none,
          site := none, date := none, tags := [] } :=
  async_extract_never_raises_fallback "https://slow.example.com"
    ⟨"Slow", "https://slow.example.com", "snip", "serper"⟩
    (.netError "timeout") (by decide)

/-- C4: in text mode the pipeline returns exactly one EnrichedResult per
merged candidate, in 1:1 order-preserving correspondence with the merged
list, whatever the per-candidate extraction outcomes are (in particular
when some extractions fail and others succeed). -/
theorem run_text_mode_one_to_one (tav ser : List Candidate)
    (diffbot : Candidate → DiffbotOutcome)
    (process_videos : Candidate → EnrichedVideo) (query : String) :
    searching_Serper_Tavily_YouTube_AssemblyAI (.ok tav) (.ok ser) diffbot
        process_videos query "search"
      = .ok ((combine_results tav ser).map
          (fun item => Enriched.text (extract_with_diffbot item.link item (diffbot item))))
    ∧ ((combine_results tav ser).map
          (fun item => Enriched.text (extract_with_diffbot item.link item (diffbot item)))).length
        = (combine_results tav ser).length := by
  constructor
  · by_cases h : (combine_results tav ser).isEmpty
    · have he : combine_results tav ser = [] := by simpa using h
      simp [searching_Serper_Tavily_YouTube_AssemblyAI, exception_to_empty, he]
    · simp [searching_Serper_Tavily_YouTube_AssemblyAI, exception_to_empty, h]
  · simp

/-- C5 (counterexample): the claim says the only raising exit path is a
pre-flight ConfigurationError for a malformed request (empty query or
unsupported mode). On the code an empty query is never validated: with an
empty query the pipeline runs and returns results, and even an unsupported
mode returns `.ok []` (rather than raising) whenever the merged candidate
list is empty, e.g. when both providers fail. -/
theorem run_no_preflight_validation_cex :
    searching_Serper_Tavily_YouTube_AssemblyAI (.ok [tavA]) (.ok [])
        diffbotDown videoStub "" "search"
      = .ok [.text ({
          title := "TAVILY",
          link := "https://a.com/x",
          snippet := "snippet tav",
          retrieved_source := "tavily",
          text := none,
          author := none,
          site := none,
          date := none,
          tags := [] } : EnrichedText)] ∧
    searching_Serper_Tavily_YouTube_AssemblyAI (.error "tavily down")
        (.error "serper down") diffbotDown videoStub "kubernetes intro" "bogus"
      = .ok [] :=
  ⟨rfl, rfl⟩

/-- C5 (amended): the pipeline performs no pre-flight validation and never
raises for an empty query or for provider/enrichment failures; its single
raising exit path is the ValueError for an unsupported `search_type`,
reached after discovery and merge and only when the merged candidate list
is non-empty. Equivalently, the run result is an error exactly when the
mode is neither `"search"` nor `"videos"` and the merged list is
non-empty. -/
theorem run_error_exit_characterization
    (tavRes serRes : Except String (List Candidate))
    (diffbot : Candidate → DiffbotOutcome)
    (process_videos : Candidate → EnrichedVideo) (query search_type : String) :
    (searching_Serper_Tavily_YouTube_AssemblyAI tavRes serRes diffbot
        process_videos query search_type).isOk
      = (decide (search_type = "search") || decide (search_type = "videos")
          || (combine_results (exception_to_empty tavRes)
              (exception_to_empty serRes)).isEmpty) := by
  by_cases h1 : (combine_results (exception_to_empty tavRes)
      (exception_to_empty serRes)).isEmpty
  · simp [searching_Serper_Tavily_YouTube_AssemblyAI, h1, Except.isOk, Except.toBool]
  · by_cases h2 : search_type = "search"
    · simp [searching_Serper_Tavily_YouTube_AssemblyAI, h1, h2, Except.isOk,
        Except.toBool]
    · by_cases h3 : search_type = "videos"
      · simp [searching_Serper_Tavily_YouTube_AssemblyAI, h1, h2, h3, Except.isOk,
          Except.toBool]
      · simp [searching_Serper_Tavily_YouTube_AssemblyAI, h1, h2, h3, Except.isOk,
          Except.toBool]

/-- C6: URLs recognized as video-domain URLs are excluded by the text-mode
filter; whitelisted video URLs are kept by the video-mode filter; and
video-domain URLs outside the whitelist are excluded by the video-mode
filter. -/
theorem classify_filter_modes (results : List Candidate) (item : Candidate) :
    (is_video_link item.link = true → item ∉ filter_text_results results) ∧
    (item ∈ results → is_allowed_video_link item.link = true →
      item ∈ filter_video_results results) ∧
    (is_video_link item.link = true → is_allowed_video_link item.link = false →
      item ∉ filter_video_results results) := by
  refine ⟨?_, ?_, ?_⟩
  · intro hv hmem
    rw [filter_text_results, List.mem_filter] at hmem
    simp [hv] at hmem
  · intro hmem ha
    rw [filter_video_results, List.mem_filter]
    exact ⟨hmem, ha⟩
  · intro _hv ha hmem
    rw [filter_video_results, List.mem_filter] at hmem
    rw [ha] at hmem
    simp at hmem

/-- C6 (witness): a Netflix URL (video domain, not whitelisted) is dropped
by both the text filter and the video filter; a YouTube URL (whitelisted)
is kept by the video filter. -/
theorem classify_filter_modes_witness :
    ((⟨"N", "https://netflix.com/watch/123", "s", "serper"⟩ : Candidate) ∉
      filter_text_results [⟨"N", "https://netflix.com/watch/123", "s", "serper"⟩]) ∧
    ((⟨"Y", "https://youtube.com/watch?v=xyz", "s", "serper"⟩ : Candidate) ∈
      filter_video_results [⟨"Y", "https://youtube.com/watch?v=xyz", "s", "serper"⟩]) ∧
    ((⟨"N", "https://netflix.com/watch/123", "s", "serper"⟩ : Candidate) ∉
      filter_video_results [⟨"N", "https://netflix.com/watch/123", "s", "serper"⟩]) :=
  ⟨(classify_filter_modes [⟨"N", "https://netflix.com/watch/123", "s", "serper"⟩]
      ⟨"N", "https://netflix.com/watch/123", "s", "serper"⟩).1 (by decide),
    (classify_filter_modes [⟨"Y", "https://youtube.com/watch?v=xyz", "s", "serper"⟩]
      ⟨"Y", "https://youtube.com/watch?v=xyz", "s", "serper"⟩).2.1 (by simp) (by decide),
    (classify_filter_modes [⟨"N", "https://netflix.com/watch/123", "s", "serper"⟩]
      ⟨"N", "https://netflix.com/watch/123", "s", "serper"⟩).2.2 (by decide) (by decide)⟩

/-- C7 (counterexample): the claim says the provider clients never return a
candidate with an empty link. In text mode the Serper client's only
filtering step is `filter_text_results`, and an empty link is not a video
link, so an API row without a link survives: the client returns a
candidate whose `link` is `""`. -/
theorem serper_returns_empty_link_cex :
    discover_with_serper "search"
        (.ok ⟨[⟨"Untitled", "", "a snippet"⟩], []⟩)
      = .ok [⟨"Untitled", "", "a snippet", "serper"⟩] := by
  rfl

/-- C7 (amended): empty-link candidates are not dropped by the provider
clients (the Serper text filter keeps them); instead the Merger itself
ignores them — merging is unchanged when candidates with an empty
normalized link are removed from either input list, so no empty-link
candidate survives into the merged output. -/
theorem merger_ignores_empty_links (tav ser : List Candidate) :
    combine_results (tav.filter (fun c => !(normalized_link c == "")))
        (ser.filter (fun c => !(normalized_link c == "")))
      = combine_results tav ser := by
  show (combineInto (tav.filter (fun c => !(normalized_link c == ""))) []).1
        ++ (combineInto (ser.filter (fun c => !(normalized_link c == "")))
            (combineInto (tav.filter (fun c => !(normalized_link c == ""))) []).2).1
      = (combineInto tav []).1 ++ (combineInto ser (combineInto tav []).2).1
  rw [combineInto_filter_truthy tav, combineInto_filter_truthy ser]

/-- C8 (counterexample): the claim's length formula is quantified over all
pairs of candidate lists; it fails when a list repeats a link. For
`A = [tavA, tavA]` and `B = []` the merged length is 1 while
`|A| + |B| − |{links of B in A}| = 2`. -/
theorem merge_length_formula_cex :
    ¬ ((combine_results [tavA, tavA] []).length
        = [tavA, tavA].length + ([] : List Candidate).length
          - (([] : List Candidate).filter
              (fun c => decide (normalized_link c ∈ [tavA, tavA].map normalized_link))).length) := by
  decide

/-- C8 (amended): for candidate lists A and B whose normalized links are
non-empty and pairwise distinct within each list, the merged length is
`|A| + |B| − |{items of B whose normalized link occurs in A}|`; and
whenever each input has length at most MAX_LINKS the merged length is at
most 2×MAX_LINKS. -/
theorem merge_length_formula (A B : List Candidate)
    (hA1 : ∀ c ∈ A, normalized_link c ≠ "")
    (hA2 : (A.map normalized_link).Nodup)
    (hB1 : ∀ c ∈ B, normalized_link c ≠ "")
    (hB2 : (B.map normalized_link).Nodup)
    (hAlen : A.length ≤ MAX_LINKS) (hBlen : B.length ≤ MAX_LINKS) :
    (combine_results A B).length
      = A.length + B.length
        - (B.filter (fun c => decide (normalized_link c ∈ A.map normalized_link))).length
    ∧ (combine_results A B).length ≤ 2 * MAX_LINKS := by
  have hcombeq : combine_results A B
      = (combineInto A []).1 ++ (combineInto B (combineInto A []).2).1 := rfl
  constructor
  · have hAeq : (combineInto A []).1 = A :=
      combineInto_eq_self A [] (fun c hc => ⟨hA1 c hc, by simp⟩) hA2
    have hseen : ∀ k, k ∈ (combineInto A []).2 ↔ k ∈ A.map normalized_link := by
      intro k
      rw [combineInto_snd_mem, hAeq]
      simp
    have hBlen2 : (combineInto B (combineInto A []).2).1.length
        = (B.filter (fun c => decide (normalized_link c ∉ (combineInto A []).2))).length :=
      combineInto_length_eq B _ hB1 hB2
    have hconv : B.filter (fun c => decide (normalized_link c ∉ (combineInto A []).2))
        = B.filter (fun c => !(decide (normalized_link c ∈ A.map normalized_link))) :=
      List.filter_congr (fun c _ => by
        rw [decide_not]
        exact congrArg Bool.not (decide_eq_decide.mpr (hseen (normalized_link c))))
    have hsum : (B.filter (fun c => decide (normalized_link c ∈ A.map normalized_link))).length
        + (B.filter (fun c => !(decide (normalized_link c ∈ A.map normalized_link)))).length
          = B.length :=
      length_filter_add_length_filter_not B _
    rw [hcombeq, List.length_append, hAeq, hBlen2, hconv]
    omega
  · have l1 := combineInto_length_le A ([] : List String)
    have l2 := combineInto_length_le B (combineInto A []).2
    rw [hcombeq, List.length_append]
    omega

/-- C8 (witness): the amended theorem at two singleton lists whose links
collide after normalization: merged length `1 = 1 + 1 − 1`. -/
theorem merge_length_formula_witness :
    (combine_results [tavA] [serA]).length
      = [tavA].length + [serA].length
        - ([serA].filter
            (fun c => decide (normalized_link c ∈ [tavA].map normalized_link))).length
    ∧ (combine_results [tavA] [serA]).length ≤ 2 * MAX_LINKS :=
  merge_length_formula [tavA] [serA] (by decide) (by decide) (by decide) (by decide)
    (by decide) (by decide)

/-- C9: the Merger is idempotent with respect to deduplication: merging the
output of `Merge(A,B)` as the first list with an empty second list yields
the same list. -/
theorem merge_idempotent (tav ser : List Candidate) :
    combine_results (combine_results tav ser) [] = combine_results tav ser := by
  have h1 : ∀ c ∈ combine_results tav ser,
      normalized_link c ≠ "" ∧ normalized_link c ∉ ([] : List String) :=
    fun c hc => ⟨combine_results_mem tav ser c hc, by simp⟩
  have hfst : (combineInto (combine_results tav ser) []).1 = combine_results tav ser :=
    combineInto_eq_self _ _ h1 (combine_results_nodup tav ser)
  show (combineInto (combine_results tav ser) []).1
        ++ (combineInto [] (combineInto (combine_results tav ser) []).2).1
      = combine_results tav ser
  rw [combineInto_nil]
  simpa using hfst

/-- C10: every candidate in the output of `combine_results` has a link that
is non-empty after whitespace-trimming (and lower-casing): the merge loop
itself skips any item whose normalized link is empty. -/
theorem merged_links_are_nonempty (tav ser : List Candidate) (c : Candidate)
    (hc : c ∈ combine_results tav ser) :
    normalized_link c ≠ "" :=
  combine_results_mem tav ser c hc

/-- C10 (witness): the theorem at a concrete merged output member. -/
theorem merged_links_are_nonempty_witness : normalized_link tavA ≠ "" :=
  merged_links_are_nonempty [tavA] [serB] tavA (by decide)

end Mentor
